import Mathlib

/-!
A verification development for the seaflog event parsing engine (seaflog.go):
a shallow embedding of the timestamp recognizer, the event scanner state
machine, the event classifier, the time filter, the unhandled-to-note
transform, and the TSDATA tabular writer, together with theorems about the
behaviour the design documentation ascribes to them.

Modelling conventions:
* Go strings are Lean `String`s; input streams are lists of lines plus an
  optional terminal read error.
* `time.Time` values are modelled by `GoTime := Int`, the number of
  nanoseconds since Go's zero time instant (January 1, year 1, 00:00:00
  UTC); `time.Time.IsZero` corresponds to equality with `0`.  A `GoTime`
  carries no display location, so rendering is modelled in UTC.
* A Go `(value, error)` return pair becomes a Lean pair whose second
  component is an `Option String` (or a `Bool` where only the nil-ness of
  the error is ever consulted).
-/

/-- Absolute instants: integer nanoseconds since Go's zero time instant
(January 1, year 1, 00:00:00 UTC). -/
abbrev GoTime := Int

/-- Numeric value of an ASCII decimal digit character. -/
def digVal (c : Char) : Nat := c.toNat - 48

/-- Value of a two-digit ASCII decimal number. -/
def dd2 (a b : Char) : Nat := digVal a * 10 + digVal b

/-- Gregorian leap-year test, as in Go's time package. -/
def isLeapYear (y : Nat) : Bool := y % 4 == 0 && (y % 100 != 0 || y % 400 == 0)

/-- Number of days in the given month of the given year, as in Go's
`daysIn`, used by `time.Parse` to validate the day component. -/
def daysInMonth (y m : Nat) : Nat :=
  if m = 2 then (if isLeapYear y then 29 else 28)
  else if m = 4 ∨ m = 6 ∨ m = 9 ∨ m = 11 then 30 else 31

/-- Number of days from 0001-01-01 to the given proleptic-Gregorian civil
date, via the standard era-based conversion; this models the date
arithmetic Go performs when `time.Parse` builds a `time.Time`. -/
def daysFromCivil (y : Int) (m d : Nat) : Int :=
  let yy := if m ≤ 2 then y - 1 else y
  let era := yy.ediv 400
  let yoe := (yy.emod 400).toNat
  let doy := (153 * (if m > 2 then m - 3 else m + 9) + 2) / 5 + d - 1
  let doe := yoe * 365 + yoe / 4 - yoe / 100 + doy
  era * 146097 + (doe : Int) - 719468 + 719162

/-- Timezone suffix of an RFC3339 string as Go's `time.Parse` accepts it for
the RFC3339 layout: a literal `Z`, or a sign, two digit hours, a colon and
two digit minutes (the generic layout parser applies no range check to the
numeric offset).  Returns the zone offset in seconds.  The suffix must end
the string: trailing text is a parse error in Go. -/
def parseZone : List Char → Option Int
  | ['Z'] => some 0
  | [sg, h1, h2, ':', m1, m2] =>
    if (sg == '+' || sg == '-') && h1.isDigit && h2.isDigit && m1.isDigit && m2.isDigit then
      let off : Int := (dd2 h1 h2 * 60 + dd2 m1 m2) * 60
      some (if sg == '-' then -off else off)
    else none
  | _ => none

/-- Optional fractional-second suffix followed by the timezone suffix, as
Go's `time.Parse` handles it for the RFC3339 layout: a comma or period
followed by at least one digit, truncated to nanosecond precision.
Returns nanoseconds and the zone offset in seconds. -/
def parseFracZone : List Char → Option (Nat × Int)
  | [] => none
  | c :: cs =>
    if (c == '.' || c == ',') && cs.head?.elim false Char.isDigit then
      let ds := cs.takeWhile Char.isDigit
      let d9 := ds.take 9
      let nanos := d9.foldl (fun a ch => a * 10 + digVal ch) 0 * 10 ^ (9 - d9.length)
      (parseZone (cs.dropWhile Char.isDigit)).map (fun z => (nanos, z))
    else
      (parseZone (c :: cs)).map (fun z => (0, z))

/-- Models Go's `time.Parse(time.RFC3339, s)`: a fixed
`YYYY-MM-DDThh:mm:ss` skeleton with range-checked components (month 1-12,
day validated against the month length, hour 0-23, minute and second 0-59),
an optional fractional second, and a `Z` or `±hh:mm` zone suffix.  Returns
the denoted instant on success. -/
def goRFC3339Parse (s : String) : Option GoTime :=
  match s.toList with
  | y1 :: y2 :: y3 :: y4 :: '-' :: o1 :: o2 :: '-' :: d1 :: d2 :: 'T' :: h1 :: h2 :: ':' :: i1 :: i2 :: ':' :: s1 :: s2 :: rest =>
    if y1.isDigit && y2.isDigit && y3.isDigit && y4.isDigit &&
        o1.isDigit && o2.isDigit && d1.isDigit && d2.isDigit &&
        h1.isDigit && h2.isDigit && i1.isDigit && i2.isDigit &&
        s1.isDigit && s2.isDigit then
      let year := ((digVal y1 * 10 + digVal y2) * 10 + digVal y3) * 10 + digVal y4
      let month := dd2 o1 o2
      let day := dd2 d1 d2
      let hour := dd2 h1 h2
      let minute := dd2 i1 i2
      let second := dd2 s1 s2
      if 1 ≤ month ∧ month ≤ 12 ∧ 1 ≤ day ∧ day ≤ daysInMonth year month ∧
          hour ≤ 23 ∧ minute ≤ 59 ∧ second ≤ 59 then
        match parseFracZone rest with
        | some (nanos, z) =>
          some ((daysFromCivil (year : Int) month day * 86400 +
            ((hour * 3600 + minute * 60 + second : Nat) : Int) - z) * 1000000000 + (nanos : Int))
        | none => none
      else none
    else none
  | _ => none

/-- Models `timeExpr.ReplaceAllString(text, "...")` from seaflog.go: the
anchored pattern `YYYY-MM-DDThh-mm-ss±hh-mm` matches the whole line or not
at all, so the replacement either rewrites the three time separators and
the zone separator to colons, or returns the text unchanged. -/
def timeSub (text : String) : String :=
  match text.toList with
  | [y1, y2, y3, y4, '-', o1, o2, '-', d1, d2, 'T', h1, h2, '-', i1, i2, '-', s1, s2, sg, z1, z2, '-', z3, z4] =>
    if y1.isDigit && y2.isDigit && y3.isDigit && y4.isDigit &&
        o1.isDigit && o2.isDigit && d1.isDigit && d2.isDigit &&
        h1.isDigit && h2.isDigit && i1.isDigit && i2.isDigit &&
        s1.isDigit && s2.isDigit && (sg == '+' || sg == '-') &&
        z1.isDigit && z2.isDigit && z3.isDigit && z4.isDigit then
      String.mk [y1, y2, y3, y4, '-', o1, o2, '-', d1, d2, 'T', h1, h2, ':',
        i1, i2, ':', s1, s2, sg, z1, z2, ':', z3, z4]
    else text
  | _ => text

/-- Models `parseTimestamp` from seaflog.go.  The second component is true
exactly when the Go function returns a non-nil error.  Note the faithful
reproduction of the source's control flow: when the substitution left the
text unchanged the function returns the zero time together with whatever
error `time.Parse` produced - which is nil when the text was already a
valid RFC3339 timestamp. -/
def parseTimestamp (text : String) : GoTime × Bool :=
  let tstamp := timeSub text
  match goRFC3339Parse tstamp with
  | none => (0, true)
  | some t => if tstamp = text then (0, false) else (t, false)

/-- Dynamic event value, modelling the `interface{}` field `Event.Value` in
seaflog.go: absent (Go nil), a float64, a string, or a bool.  A float64 is
represented by the accepted literal text; no verified claim observes
binary floating-point semantics. -/
inductive GoValue where
  | none : GoValue
  | float (lit : String) : GoValue
  | str (s : String) : GoValue
  | bool (b : Bool) : GoValue
deriving DecidableEq

/-- A form of an event with a unique line prefix, from seaflog.go
(`EventForm`).  Declared examples are omitted: no verified claim consults
them. -/
structure EventForm where
  startsWith : String
  valueAction : String
deriving DecidableEq

/-- A log file event definition, from seaflog.go (`EventDef`). -/
structure EventDef where
  name : String
  type : String
  eventForms : List EventForm
deriving DecidableEq

/-- A parsed log file event, from seaflog.go (`Event`).  Go zero values -
empty strings, nil value, nil error, zero time - are the defaults used
when fields are left unassigned. -/
structure Event where
  name : String
  type : String
  line : String
  value : GoValue
  time : GoTime
  lineNumber : Nat
  error : Option String
deriving DecidableEq

/-- Modelled from the spec: the event definition table is loaded at init
from the embedded resource `event_definitions.json`, which is not among
the provided source files.  The table is modelled from the spec's
vocabulary: an entry of each declared value type - `PMT1` (`float`,
decoded `as_float`, exercised by the repository tests with the line
`PMT1:1.406`), the catch-all `note` column of type `text` used by the
unhandled-to-note downgrade, and a `boolean` event whose two forms decode
`as_true` and `as_false`.  Every `valueAction` is drawn from the spec's
five-value enum, as the spec requires of the loaded table.  Go iterates
the definition map in unspecified order; the spec assumes prefixes are
disjoint across definitions, so the fixed list order here is harmless. -/
def EventDefs : List EventDef :=
  [ ⟨"PMT1", "float", [⟨"PMT1", "as_float"⟩]⟩,
    ⟨"note", "text", []⟩,
    ⟨"sleeping", "boolean", [⟨"Going to sleep", "as_true"⟩, ⟨"Waking up", "as_false"⟩]⟩ ]

/-- Models `strings.HasPrefix(line, pre)` via the character lists. -/
def goHasPrefix (pre line : String) : Bool := pre.toList.isPrefixOf line.toList

/-- First form of a definition whose line prefix matches, mirroring the
inner loop of `CreateEvent` (`strings.HasPrefix(line, eform.StartsWith)`). -/
def findFormIn : List EventForm → String → Option EventForm
  | [], _ => Option.none
  | f :: fs, line => if goHasPrefix f.startsWith line then some f else findFormIn fs line

/-- First definition (with its matching form) whose line prefix matches,
mirroring the nested loops of `CreateEvent` over the definition table. -/
def findForm : List EventDef → String → Option (String × String × EventForm)
  | [], _ => Option.none
  | d :: ds, line =>
    match findFormIn d.eventForms line with
    | some f => some (d.name, d.type, f)
    | Option.none => findForm ds line

/-- Go's `unicode.IsSpace`, the predicate `strings.TrimSpace` trims by:
the Unicode White_Space property - U+0009-U+000D, space, NEL, NBSP, OGHAM
SPACE MARK, the U+2000-U+200A spaces, LINE/PARAGRAPH SEPARATOR, NARROW
NO-BREAK SPACE, MEDIUM MATHEMATICAL SPACE and IDEOGRAPHIC SPACE. -/
def goIsSpace (c : Char) : Bool :=
  (decide (0x09 ≤ c.toNat) && decide (c.toNat ≤ 0x0d)) || c == ' ' ||
    c.toNat == 0x85 || c.toNat == 0xa0 || c.toNat == 0x1680 ||
    (decide (0x2000 ≤ c.toNat) && decide (c.toNat ≤ 0x200a)) ||
    c.toNat == 0x2028 || c.toNat == 0x2029 || c.toNat == 0x202f ||
    c.toNat == 0x205f || c.toNat == 0x3000

/-- Models `strings.TrimSpace`: strip leading and trailing white space. -/
def goTrimSpace (s : String) : String :=
  String.mk (((s.toList.dropWhile goIsSpace).reverse.dropWhile goIsSpace).reverse)

/-- Split at the first colon, keeping both sides; `Option.none` when the
string has no colon.  Models `strings.SplitN(line, ":", 2)`: the result
has two parts exactly when a colon occurs. -/
def splitColon : List Char → Option (List Char × List Char)
  | [] => Option.none
  | ':' :: rest => some ([], rest)
  | c :: rest => (splitColon rest).map (fun p => (c :: p.1, p.2))

/-- String-level wrapper of `splitColon`. -/
def splitN2 (s : String) : Option (String × String) :=
  (splitColon s.toList).map (fun p => (String.mk p.1, String.mk p.2))

/-- Decimal mantissa acceptance for `strconv.ParseFloat`: digits with at
most one point, at least one digit overall. -/
def floatMantissaOk (l : List Char) : Bool :=
  (l.all (fun c => c.isDigit || c == '.')) &&
    (l.count '.' ≤ 1) && (l.any Char.isDigit)

/-- Optional exponent acceptance for `strconv.ParseFloat`: empty, or `e`
or `E` followed by an optional sign and one or more digits. -/
def floatExpOk : List Char → Bool
  | [] => true
  | e :: rest =>
    (e == 'e' || e == 'E') &&
      (let rest := if rest.head?.elim false (fun c => c == '+' || c == '-') then rest.tail else rest
       !rest.isEmpty && rest.all Char.isDigit)

/-- Models the acceptance behaviour of `strconv.ParseFloat(s, 64)`, an
external standard-library call, for ordinary decimal forms: an optional
sign, a decimal mantissa and an optional exponent, or the case-insensitive
special words `inf`, `infinity` and `nan`.  Exotic accepted forms (hex
mantissas, digit-group underscores) are beyond the needs of every verified
claim, none of which observes a float parse.  The successful value is
represented by the accepted text. -/
def goParseFloat (s : String) : Option String :=
  let l := s.toList
  let body := if l.head?.elim false (fun c => c == '+' || c == '-') then l.tail else l
  let low := String.mk (body.map Char.toLower)
  if low = "inf" ∨ low = "infinity" ∨ low = "nan" then some s
  else
    match body.span (fun c => c.isDigit || c == '.') with
    | (mant, rest) =>
      if floatMantissaOk mant && floatExpOk rest then some s else Option.none

/-- Error text of a failed `strconv.ParseFloat` (Go quoting simplified;
no verified claim reads this message). -/
def floatErrMsg (s : String) : String :=
  "strconv.ParseFloat: parsing \x22" ++ s ++ "\x22: invalid syntax"

/-- Models `CreateEvent` from seaflog.go over an explicit definition
table; the program instantiates it with the global `EventDefs`. -/
def createEventWith (defs : List EventDef) (line : String) (t : GoTime) (lineNumber : Nat) :
    Event × Option String :=
  let event : Event := ⟨"", "", line, GoValue.none, t, lineNumber, Option.none⟩
  if t = 0 then
    ({ event with error := some "event with no time set" }, Option.none)
  else
    match findForm defs line with
    | some (name, ty, form) =>
      let event := { event with name := name, type := ty }
      if form.valueAction = "as_float" then
        match splitN2 line with
        | Option.none => ({ event with error := some "missing expected separator \x27:\x27" }, Option.none)
        | some (_, after) =>
          match goParseFloat (goTrimSpace after) with
          | Option.none => ({ event with error := some (floatErrMsg (goTrimSpace after)) }, Option.none)
          | some lit => ({ event with value := GoValue.float lit }, Option.none)
      else if form.valueAction = "as_text" then
        match splitN2 line with
        | Option.none => ({ event with error := some "missing expected separator \x27:\x27" }, Option.none)
        | some (_, after) => ({ event with value := GoValue.str (goTrimSpace after) }, Option.none)
      else if form.valueAction = "as_true" then
        ({ event with value := GoValue.bool true }, Option.none)
      else if form.valueAction = "as_false" then
        ({ event with value := GoValue.bool false }, Option.none)
      else if form.valueAction = "as_identity" then
        ({ event with value := GoValue.str line }, Option.none)
      else
        (event, some ("invalid ValueAction in event defintiion: " ++ form.valueAction))
    | Option.none =>
      ({ event with
          name := "unhandled"
          type := "text"
          value := GoValue.str line
          error := some "unrecognized event" }, Option.none)

/-- The program's `CreateEvent`, over the global definition table. -/
def CreateEvent (line : String) (t : GoTime) (lineNumber : Nat) : Event × Option String :=
  createEventWith EventDefs line t lineNumber

/-- State of an `EventScanner`: the remaining input lines together with an
optional terminal read error of the underlying reader (reported by
`bufio.Scanner.Err` once the lines are exhausted), the current time, the
current line number, the current event, the stored terminal error, and the
done flag. -/
structure ScanState where
  input : List String
  readErr : Option String
  t : GoTime
  i : Nat
  event : Event
  error : Option String
  done : Bool
deriving DecidableEq

/-- Zero-valued `Event`, the initial value of the `event` field of a fresh
`EventScanner`. -/
def emptyEvent : Event := ⟨"", "", "", GoValue.none, 0, 0, Option.none⟩

/-- Models `NewEventScanner`: all scanner state starts zero-valued. -/
def NewEventScanner (input : List String) (readErr : Option String) : ScanState :=
  ⟨input, readErr, 0, 0, emptyEvent, Option.none, false⟩

/-- The line-consuming loop of `EventScanner.Scan`, recursing over the
remaining input lines exactly as the Go `for es.scanner.Scan()` loop
does. -/
def scanAux : List String → Option String → GoTime → Nat → Event → Option String →
    Bool × ScanState
  | [], readErr, t, i, ev, err =>
    (false, ⟨[], readErr, t, i, ev,
      (match readErr with | some e => some e | Option.none => err), true⟩)
  | line :: rest, readErr, t, i, ev, err =>
    if (parseTimestamp line).2 = false then
      scanAux rest readErr (parseTimestamp line).1 (i + 1) ev err
    else if line = "" ∨ line = "Fault:" then
      scanAux rest readErr t (i + 1) ev err
    else
      match CreateEvent line t (i + 1) with
      | (event, Option.none) => (true, ⟨rest, readErr, t, i + 1, event, err, false⟩)
      | (_, some e) => (false, ⟨rest, readErr, t, i + 1, ev, some e, false⟩)

/-- Models `EventScanner.Scan`: returns whether an event is available,
together with the scanner's next state. -/
def Scan (s : ScanState) : Bool × ScanState :=
  if s.done then (false, s)
  else scanAux s.input s.readErr s.t s.i s.event s.error

/-- Iterated application of `Scan`, following only the state. -/
def scanIter : Nat → ScanState → ScanState
  | 0, s => s
  | n + 1, s => scanIter n (Scan s).2

/-- Models `TimeFilter` from seaflog.go: `After`/`Before`/`Equal` are the
strict orders and equality on instants, and `IsZero` is equality with the
zero time. -/
def TimeFilter (event : Event) (earliest latest : GoTime) : Bool :=
  let afterEarliest :=
    decide (earliest = 0) || (decide (event.time > earliest) || decide (event.time = earliest))
  let beforeLatest :=
    decide (latest = 0) || (decide (event.time < latest) || decide (event.time = latest))
  afterEarliest && beforeLatest

/-- Models `UnhandledToNote` from seaflog.go. -/
def UnhandledToNote (unhandled : Event) : Event :=
  { name := "note"
    type := "text"
    value := GoValue.str unhandled.line
    line := unhandled.line
    lineNumber := unhandled.lineNumber
    time := unhandled.time
    error := Option.none }

/-- The field delimiter of the external tsdata package (`tsdata.Delim`),
a single tab character. -/
def Delim : String := "\t"

/-- The not-applicable marker of the external tsdata package
(`tsdata.NA`). -/
def NA : String := "NA"

/-- Decimal digit character for `n % 10`. -/
def digitCh (n : Nat) : Char := "0123456789".toList.getD (n % 10) '0'

/-- Two-digit zero-padded decimal rendering (all rendered calendar and
clock fields are below 100). -/
def pad2 (n : Nat) : String := String.mk [digitCh (n / 10), digitCh n]

/-- Decimal digit expansion of a natural number, most significant digit
first, by fuelled division; the fuel `n + 1` always suffices. -/
def natDigitsAux : Nat → Nat → List Char
  | 0, _ => []
  | fuel + 1, n => if n < 10 then [digitCh n] else natDigitsAux fuel (n / 10) ++ [digitCh n]

/-- Decimal rendering of a natural number. -/
def natStr (n : Nat) : String := String.mk (natDigitsAux (n + 1) n)

/-- Four-digit zero-padded year rendering, wider when the year needs more
digits, with a leading minus sign for negative years, as Go's `Format`
renders the `2006` layout field. -/
def padYear (y : Int) : String :=
  let n := y.natAbs
  let digits :=
    if n < 10 then "000" ++ natStr n
    else if n < 100 then "00" ++ natStr n
    else if n < 1000 then "0" ++ natStr n
    else natStr n
  if y < 0 then "-" ++ digits else digits

/-- Civil date (year, month, day) of a day count since 0001-01-01, the
standard inverse of `daysFromCivil`; models the calendar computation of
Go's `Time.Date`. -/
def civilFromDays (d : Int) : Int × Nat × Nat :=
  let z := d - 719162 + 719468
  let era := z.ediv 146097
  let doe := (z.emod 146097).toNat
  let yoe := (doe - doe / 1460 + doe / 36524 - doe / 146096) / 365
  let y : Int := (yoe : Int) + era * 400
  let doy := doe - (365 * yoe + yoe / 4 - yoe / 100)
  let mp := (5 * doy + 2) / 153
  let dd := doy - (153 * mp + 2) / 5 + 1
  let m := if mp < 10 then mp + 3 else mp - 9
  (if m ≤ 2 then y + 1 else y, m, dd)

/-- Models `event.Time.Format("2006-01-02T15:04:05-07:00")` from
`EventText`.  A `GoTime` is a bare instant with no display location, so
the rendering is the UTC form with an explicit `+00:00` numeric offset;
the only property any claim relies on is that the rendered text never
contains the field delimiter. -/
def goFormatTime (t : GoTime) : String :=
  let secs := t.ediv 1000000000
  let days := secs.ediv 86400
  let sod := (secs.emod 86400).toNat
  let c := civilFromDays days
  padYear c.1 ++ "-" ++ pad2 c.2.1 ++ "-" ++ pad2 c.2.2 ++ "T" ++
    pad2 (sod / 3600) ++ ":" ++ pad2 (sod / 60 % 60) ++ ":" ++ pad2 (sod % 60) ++ "+00:00"

/-- Models `fmt.Sprintf("%v", event.Value)`: a string prints as itself, a
bool as `true`/`false`, Go's nil interface as `<nil>`, and a float64 by
its stored literal (Go's shortest-round-trip float formatting is
abstracted; no verified claim observes a rendered float). -/
def sprintfV : GoValue → String
  | GoValue.none => "<nil>"
  | GoValue.float lit => lit
  | GoValue.str s => s
  | GoValue.bool b => if b then "true" else "false"

/-- Models `strings.ReplaceAll(s, tsdata.Delim, " ")`: the delimiter is
the single character tab, so replacement is character-wise. -/
def replaceDelimWithSpace (s : String) : String :=
  String.mk (s.toList.map (fun c => if c = '\t' then ' ' else c))

/-- Models `strings.Join(outs, sep)`. -/
def goJoin (sep : String) : List String → String
  | [] => ""
  | [a] => a
  | a :: rest => a ++ sep ++ goJoin sep rest

/-- Lexicographic strict order on character lists, modelling Go's `<` on
strings (byte order coincides with character order on these names). -/
def strLt : List Char → List Char → Bool
  | [], [] => false
  | [], _ :: _ => true
  | _ :: _, [] => false
  | a :: as, b :: bs => if a = b then strLt as bs else decide (a < b)

/-- Insertion of a string into a sorted list, lexicographically. -/
def insertSorted (a : String) : List String → List String
  | [] => [a]
  | b :: rest => if strLt a.toList b.toList then a :: b :: rest else b :: insertSorted a rest

/-- Models `sort.Strings`: lexicographic ascending sort. -/
def sortStrings : List String → List String
  | [] => []
  | a :: rest => insertSorted a (sortStrings rest)

/-- Models the `TsdataWriter` struct of seaflog.go: the tsdata header
metadata it owns (file-level strings and per-column names, types, units
and comments) and the column index by column name. -/
structure TsdataWriter where
  fileType : String
  project : String
  fileDescription : String
  headers : List String
  types : List String
  units : List String
  comments : List String
  coli : List (String × Nat)
deriving DecidableEq

/-- Models `NewTsdataWriter`: the column set is `time` followed by the
definition names in unique sorted order; the `time` column has type
`time` and a descriptive comment, every event column carries its
definition's declared type, and units and remaining comments are the
not-applicable placeholder.  The Go map `coli` is modelled as the
association list of columns with their indexes (column names are unique,
so first-match lookup agrees with the Go map).  The external
`ValidateMetadata` consistency check, which can only panic at
construction time, is not modelled. -/
def NewTsdataWriter (fileType project description : String) : TsdataWriter :=
  let keys := sortStrings (EventDefs.map (fun d => d.name))
  let columns := "time" :: keys
  { fileType := fileType
    project := project
    fileDescription := description
    headers := columns
    types := columns.enum.map (fun p =>
      if p.1 = 0 then "time"
      else match EventDefs.find? (fun d => d.name == p.2) with
        | some d => d.type
        | Option.none => "")
    units := columns.map (fun _ => NA)
    comments := columns.enum.map (fun p => if p.1 = 0 then "ISO8601 timestamp" else NA)
    coli := columns.enum.map (fun p => (p.2, p.1)) }

/-- The row skeleton `outs` built at the top of `EventText`: the rendered
event time followed by the not-applicable marker for every other
column. -/
def baseOuts (w : TsdataWriter) (e : Event) : List String :=
  goFormatTime e.time :: List.replicate (w.headers.length - 1) NA

/-- Models `TsdataWriter.EventText`.  The result pairs the rendered row
with an optional error, exactly as the Go method returns
`(string, error)`.  `Types[i]` is read with a default for the
out-of-range case Go would panic on (unreachable for constructed
writers, whose `coli` indexes are always in range). -/
def EventText (w : TsdataWriter) (e : Event) : String × Option String :=
  match e.error with
  | some _ => ("", Option.none)
  | Option.none =>
    let outs := baseOuts w e
    match w.coli.lookup e.name with
    | some i =>
      if w.types.getD i "" = "boolean" then
        match e.value with
        | GoValue.bool b =>
          (goJoin Delim (outs.set i (if b then "TRUE" else "FALSE")), Option.none)
        | _ => ("", some ("bad boolean value for column " ++ e.name))
      else if w.types.getD i "" = "text" then
        (goJoin Delim (outs.set i (replaceDelimWithSpace (sprintfV e.value))), Option.none)
      else
        (goJoin Delim (outs.set i (sprintfV e.value)), Option.none)
    | Option.none =>
      ("", some ("TSDATA column index for event named " ++ e.name ++ " not found"))

/-- C1: the recognizer does not satisfy the claimed guard.  On a line that
is already a valid standard-format RFC3339 timestamp the substitution
leaves the input unchanged, yet `parseTimestamp` returns a nil error (with
the zero time), so the scanner - which tests only the error - recognizes
the line as a timestamp, consumes it without emitting an event, and resets
the current time to unset.  This evaluates the code at the failing
input. -/
theorem parseTimestamp_already_rfc3339_recognized :
    timeSub "2015-03-14T00:26:52+00:00" = "2015-03-14T00:26:52+00:00" ∧
    (goRFC3339Parse "2015-03-14T00:26:52+00:00").isSome = true ∧
    parseTimestamp "2015-03-14T00:26:52+00:00" = (0, false) ∧
    Scan ⟨["2015-03-14T00:26:52+00:00"], Option.none, 1000000000, 5, emptyEvent, Option.none, false⟩ =
      (false, ⟨[], Option.none, 0, 6, emptyEvent, Option.none, true⟩) := by
  refine ⟨rfl, ?_, ?_, ?_⟩ <;> decide

/-- C5: on an unhandled event, `UnhandledToNote` produces an event named
`note` of type `text` whose value is the raw line text, with the same
line, line number and time, and no error set. -/
theorem UnhandledToNote_spec (e : Event) (_h : e.name = "unhandled") :
    UnhandledToNote e =
      ⟨"note", "text", e.line, GoValue.str e.line, e.time, e.lineNumber, Option.none⟩ := rfl

/-- Witness for C5 at a concrete unhandled event. -/
theorem UnhandledToNote_spec_witness :
    UnhandledToNote
        ⟨"unhandled", "text", "abc", GoValue.str "abc", 5, 2, some "unrecognized event"⟩ =
      ⟨"note", "text", "abc", GoValue.str "abc", 5, 2, Option.none⟩ :=
  UnhandledToNote_spec _ rfl

/-- Characterization of `TimeFilter` shared by the time-filter claims. -/
theorem timeFilter_eq_true_iff (e : Event) (earliest latest : GoTime) :
    TimeFilter e earliest latest = true ↔
      ((earliest = 0 ∨ earliest ≤ e.time) ∧ (latest = 0 ∨ e.time ≤ latest)) := by
  have key : ∀ t a b : Int,
      ((a = 0 ∨ t > a ∨ t = a) ∧ (b = 0 ∨ t < b ∨ t = b) ↔
        ((a = 0 ∨ a ≤ t) ∧ (b = 0 ∨ t ≤ b))) := by
    intro t a b
    omega
  simp only [TimeFilter, Bool.and_eq_true, Bool.or_eq_true, decide_eq_true_eq]
  exact key e.time earliest latest

/-- C6: `TimeFilter` accepts exactly the events satisfying the inclusive
bounds, where a zero bound imposes no constraint on its side; in
particular with neither bound set every event is accepted. -/
theorem TimeFilter_spec :
    (∀ (e : Event) (earliest latest : GoTime),
      TimeFilter e earliest latest = true ↔
        ((earliest = 0 ∨ earliest ≤ e.time) ∧ (latest = 0 ∨ e.time ≤ latest))) ∧
    (∀ e : Event, TimeFilter e 0 0 = true) := by
  refine ⟨timeFilter_eq_true_iff, fun e => ?_⟩
  exact (timeFilter_eq_true_iff e 0 0).2 ⟨Or.inl rfl, Or.inl rfl⟩

/-- C10: `TimeFilter` treats a zero (unset) event time as an ordinary
instant: with both bounds unset the event passes, and any positive
`earliest` bound rejects it regardless of `latest`. -/
theorem TimeFilter_zero_time (e : Event) (h : e.time = 0) :
    TimeFilter e 0 0 = true ∧
      ∀ earliest latest : GoTime, 0 < earliest → TimeFilter e earliest latest = false := by
  have key : ∀ a : Int, 0 < a → ¬(a = 0 ∨ a ≤ 0) := by
    intro a ha
    omega
  refine ⟨(timeFilter_eq_true_iff e 0 0).2 ⟨Or.inl rfl, Or.inl rfl⟩, ?_⟩
  intro earliest latest hlt
  rw [Bool.eq_false_iff]
  intro htrue
  have hc := ((timeFilter_eq_true_iff e earliest latest).1 htrue).1
  rw [h] at hc
  exact key earliest hlt hc

/-- Witness for C10 at a concrete zero-time event. -/
theorem TimeFilter_zero_time_witness :
    TimeFilter emptyEvent 0 0 = true ∧ TimeFilter emptyEvent 1 5 = false :=
  ⟨(TimeFilter_zero_time emptyEvent rfl).1,
   (TimeFilter_zero_time emptyEvent rfl).2 1 5 (by decide)⟩

/-- C7: an event whose error is set renders as the empty string with a nil
error - a no-op result, so an errored event never produces a data row. -/
theorem EventText_errored_no_row (w : TsdataWriter) (e : Event)
    (h : e.error ≠ Option.none) : EventText w e = ("", Option.none) := by
  cases he : e.error with
  | none => exact absurd he h
  | some msg => simp [EventText, he]

/-- Witness for C7 at a concrete errored event and the constructed
writer. -/
theorem EventText_errored_no_row_witness :
    EventText (NewTsdataWriter "ft" "proj" "desc")
        ⟨"unhandled", "text", "x", GoValue.str "x", 5, 2, some "unrecognized event"⟩ =
      ("", Option.none) :=
  EventText_errored_no_row _ _ (by simp)

/-- A form found by `findFormIn` belongs to the searched list. -/
theorem findFormIn_mem (fs : List EventForm) (line : String) (f : EventForm)
    (h : findFormIn fs line = some f) : f ∈ fs := by
  induction fs with
  | nil => simp [findFormIn] at h
  | cons g gs ih =>
    by_cases hp : goHasPrefix g.startsWith line
    · simp [findFormIn, hp] at h
      simp [h]
    · simp [findFormIn, hp] at h
      exact List.mem_cons_of_mem g (ih h)

/-- A form found by `findForm` belongs to some searched definition. -/
theorem findForm_mem (defs : List EventDef) (line : String) (nm ty : String) (f : EventForm)
    (h : findForm defs line = some (nm, ty, f)) : ∃ d ∈ defs, f ∈ d.eventForms := by
  induction defs with
  | nil => simp [findForm] at h
  | cons d ds ih =>
    cases hin : findFormIn d.eventForms line with
    | none =>
      simp [findForm, hin] at h
      obtain ⟨d', hd', hf'⟩ := ih h
      exact ⟨d', List.mem_cons_of_mem d hd', hf'⟩
    | some g =>
      simp [findForm, hin] at h
      exact ⟨d, List.mem_cons_self d ds, h.2.2 ▸ findFormIn_mem d.eventForms line g hin⟩

/-- With a definition table whose value actions are all drawn from the
spec's five-value enum (`as_float`, `as_text`, `as_true`, `as_false`,
`as_identity`), `createEventWith` never returns a top-level error: the
only erroring branch is the defensive invalid-action default, which every
enum value avoids. -/
theorem createEventWith_snd_none (defs : List EventDef)
    (hvalid : ∀ d ∈ defs, ∀ f ∈ d.eventForms,
      f.valueAction = "as_float" ∨ f.valueAction = "as_text" ∨
      f.valueAction = "as_true" ∨ f.valueAction = "as_false" ∨
      f.valueAction = "as_identity")
    (line : String) (t : GoTime) (n : Nat) :
    (createEventWith defs line t n).2 = Option.none := by
  unfold createEventWith
  by_cases ht : t = 0
  · simp [ht]
  · rw [if_neg ht]
    cases hf : findForm defs line with
    | none => simp
    | some p =>
      obtain ⟨nm, ty, f⟩ := p
      obtain ⟨d, hd, hfm⟩ := findForm_mem defs line nm ty f hf
      rcases hvalid d hd f hfm with h | h | h | h | h <;> simp only [h] <;>
        cases splitN2 line with
        | none => simp
        | some p2 =>
          cases p2 with
          | mk b a =>
            cases hgp : goParseFloat (goTrimSpace a) <;> simp [hgp]

/-- The global table satisfies the value-action validity premise. -/
theorem eventDefs_valid : ∀ d ∈ EventDefs, ∀ f ∈ d.eventForms,
    f.valueAction = "as_float" ∨ f.valueAction = "as_text" ∨
    f.valueAction = "as_true" ∨ f.valueAction = "as_false" ∨
    f.valueAction = "as_identity" := by
  decide

/-- `CreateEvent` never returns a top-level error. -/
theorem createEvent_snd_none (line : String) (t : GoTime) (n : Nat) :
    (CreateEvent line t n).2 = Option.none :=
  createEventWith_snd_none EventDefs eventDefs_valid line t n

/-- When the scan loop reports no event, the resulting state is done. -/
theorem scanAux_false_done (input : List String) :
    ∀ (readErr : Option String) (t : GoTime) (i : Nat) (ev : Event) (err : Option String),
      (scanAux input readErr t i ev err).1 = false →
      (scanAux input readErr t i ev err).2.done = true := by
  induction input with
  | nil => intro readErr t i ev err _; rfl
  | cons line rest ih =>
    intro readErr t i ev err h
    by_cases hts : (parseTimestamp line).2 = false
    · rw [scanAux, if_pos hts] at h ⊢
      exact ih readErr (parseTimestamp line).1 (i + 1) ev err h
    · by_cases hsk : line = "" ∨ line = "Fault:"
      · rw [scanAux, if_neg hts, if_pos hsk] at h ⊢
        exact ih readErr t (i + 1) ev err h
      · rw [scanAux, if_neg hts, if_neg hsk] at h ⊢
        have hce := createEvent_snd_none line t (i + 1)
        rcases hq : CreateEvent line t (i + 1) with ⟨event, err2⟩
        rw [hq] at h hce
        cases err2 with
        | none => simp at h
        | some e => simp at hce

/-- A done scanner is a fixed point of `Scan`. -/
theorem scan_done_fix (s : ScanState) (h : s.done = true) : Scan s = (false, s) := by
  simp [Scan, h]

/-- C2: the scanner never leaves a terminal state.  Whenever `Scan`
returns false the resulting state is done; a done state is a fixed point
of `Scan`, so every subsequent call returns false with the state - input,
event and stored terminal error included - unchanged: no further input is
consumed, no further events are produced, and the terminal error is never
overwritten after the call that set it. -/
theorem Scan_terminal_states :
    (∀ s : ScanState, s.done = true → Scan s = (false, s)) ∧
    (∀ s : ScanState, (Scan s).1 = false → (Scan s).2.done = true) ∧
    (∀ s : ScanState, (Scan s).1 = false → ∀ n : Nat,
      scanIter n (Scan s).2 = (Scan s).2 ∧
        Scan (scanIter n (Scan s).2) = (false, (Scan s).2)) := by
  have hfix : ∀ s : ScanState, s.done = true → Scan s = (false, s) := scan_done_fix
  have hdone : ∀ s : ScanState, (Scan s).1 = false → (Scan s).2.done = true := by
    intro s h
    by_cases hd : s.done
    · rw [hfix s hd] at h ⊢
      exact hd
    · simp only [Bool.not_eq_true] at hd
      simp only [Scan, hd, Bool.false_eq_true, if_false] at h ⊢
      exact scanAux_false_done s.input s.readErr s.t s.i s.event s.error h
  refine ⟨hfix, hdone, ?_⟩
  intro s h n
  induction n with
  | zero => exact ⟨rfl, hfix (Scan s).2 (hdone s h)⟩
  | succ m ih =>
    have hstep : Scan (Scan s).2 = (false, (Scan s).2) := hfix (Scan s).2 (hdone s h)
    constructor
    · show scanIter m (Scan (Scan s).2).2 = (Scan s).2
      rw [hstep]
      exact ih.1
    · show Scan (scanIter m (Scan (Scan s).2).2) = (false, (Scan s).2)
      rw [hstep]
      exact ih.2

/-- Witness for C2: an exhausted scanner is done, stays fixed under
iterated calls, and a done state maps to itself. -/
theorem Scan_terminal_states_witness :
    Scan ⟨[], Option.none, 7, 3, emptyEvent, Option.none, true⟩ =
      (false, ⟨[], Option.none, 7, 3, emptyEvent, Option.none, true⟩) ∧
    (Scan (NewEventScanner [] Option.none)).2.done = true ∧
    scanIter 3 (Scan (NewEventScanner [] Option.none)).2 =
      (Scan (NewEventScanner [] Option.none)).2 :=
  ⟨Scan_terminal_states.1 _ rfl,
   Scan_terminal_states.2.1 _ (by decide),
   (Scan_terminal_states.2.2 _ (by decide) 3).1⟩

/-- C3: a data line scanned while the current time is unset produces an
event whose error is `event with no time set`, with no name, type or
value assigned from the definition table; `Scan` still returns true with
a non-terminal state and no stored terminal error, so scanning continues
with the remaining lines. -/
theorem CreateEvent_no_time_set :
    (∀ (line : String) (n : Nat),
      CreateEvent line 0 n =
        (⟨"", "", line, GoValue.none, 0, n, some "event with no time set"⟩, Option.none)) ∧
    (∀ (s : ScanState) (line : String) (rest : List String),
      s.done = false → s.input = line :: rest → s.t = 0 →
      (parseTimestamp line).2 = true → ¬(line = "" ∨ line = "Fault:") →
      Scan s = (true, ⟨rest, s.readErr, 0, s.i + 1,
        ⟨"", "", line, GoValue.none, 0, s.i + 1, some "event with no time set"⟩,
        s.error, false⟩)) := by
  have hce : ∀ (line : String) (n : Nat),
      CreateEvent line 0 n =
        (⟨"", "", line, GoValue.none, 0, n, some "event with no time set"⟩, Option.none) := by
    intro line n
    rfl
  refine ⟨hce, ?_⟩
  intro s line rest hdone hinput ht hts hsk
  simp only [Scan, hdone, Bool.false_eq_true, if_false, hinput, ht]
  rw [scanAux, if_neg (by simp [hts]), if_neg hsk, hce line (s.i + 1)]

/-- Witness for C3: the repository test's unrecognized data line, fed to a
fresh scanner before any timestamp line. -/
theorem CreateEvent_no_time_set_witness :
    Scan (NewEventScanner ["not a real event data line"] Option.none) =
      (true, ⟨[], Option.none, 0, 1,
        ⟨"", "", "not a real event data line", GoValue.none, 0, 1,
          some "event with no time set"⟩, Option.none, false⟩) :=
  CreateEvent_no_time_set.2 _ "not a real event data line" [] rfl rfl rfl
    (by decide) (by decide)

/-- No matching form exists when no form of the list has a matching
prefix. -/
theorem findFormIn_eq_none (fs : List EventForm) (line : String)
    (h : ∀ f ∈ fs, goHasPrefix f.startsWith line = false) :
    findFormIn fs line = Option.none := by
  induction fs with
  | nil => rfl
  | cons g gs ih =>
    rw [findFormIn, if_neg (by simp [h g (List.mem_cons_self g gs)])]
    exact ih (fun f hf => h f (List.mem_cons_of_mem g hf))

/-- No definition matches when no form of any definition has a matching
prefix. -/
theorem findForm_eq_none (defs : List EventDef) (line : String)
    (h : ∀ d ∈ defs, ∀ f ∈ d.eventForms, goHasPrefix f.startsWith line = false) :
    findForm defs line = Option.none := by
  induction defs with
  | nil => rfl
  | cons d ds ih =>
    rw [findForm, findFormIn_eq_none d.eventForms line (h d (List.mem_cons_self d ds))]
    exact ih (fun d' hd' => h d' (List.mem_cons_of_mem d hd'))

/-- C4: a data line with the current time set whose text has none of the
definition table's form prefixes as a literal prefix classifies as the
unhandled event: name `unhandled`, type `text`, value the raw line text,
error `unrecognized event` (and no top-level error). -/
theorem CreateEvent_unrecognized (line : String) (t : GoTime) (n : Nat)
    (ht : t ≠ 0)
    (h : ∀ d ∈ EventDefs, ∀ f ∈ d.eventForms, goHasPrefix f.startsWith line = false) :
    CreateEvent line t n =
      (⟨"unhandled", "text", line, GoValue.str line, t, n, some "unrecognized event"⟩,
        Option.none) := by
  unfold CreateEvent createEventWith
  rw [if_neg ht, findForm_eq_none EventDefs line h]

/-- Witness for C4 at the repository test's unrecognized data line. -/
theorem CreateEvent_unrecognized_witness :
    CreateEvent "not a real event data line" 63561889612000000000 2 =
      (⟨"unhandled", "text", "not a real event data line",
        GoValue.str "not a real event data line", 63561889612000000000, 2,
        some "unrecognized event"⟩, Option.none) :=
  CreateEvent_unrecognized _ _ _ (by decide) (by decide)

/-- Number of field-delimiter (tab) characters in a string. -/
def countTab (s : String) : Nat := s.toList.count '\t'

/-- Tab counting distributes over append. -/
theorem countTab_append (a b : String) : countTab (a ++ b) = countTab a + countTab b := by
  rcases a with ⟨la⟩
  rcases b with ⟨lb⟩
  simp [countTab, String.toList, List.count_append]

/-- Digit characters are never the delimiter. -/
theorem digitCh_ne_tab (n : Nat) : digitCh n ≠ '\t' := by
  have h : n % 10 < 10 := Nat.mod_lt n (by decide)
  unfold digitCh
  generalize hr : n % 10 = r
  rw [hr] at h
  interval_cases r <;> decide

/-- Two-digit fields contain no delimiter. -/
theorem countTab_pad2 (n : Nat) : countTab (pad2 n) = 0 := by
  rw [countTab, pad2]
  rw [List.count_eq_zero]
  intro hmem
  rcases List.mem_cons.1 hmem with h | h
  · exact digitCh_ne_tab (n / 10) h.symm
  · exact digitCh_ne_tab n (List.mem_singleton.1 h).symm

/-- Digit expansions contain no delimiter. -/
theorem natDigitsAux_tab_not_mem (fuel : Nat) :
    ∀ n : Nat, '\t' ∉ natDigitsAux fuel n := by
  induction fuel with
  | zero =>
    intro n h
    exact List.not_mem_nil _ h
  | succ f ih =>
    intro n
    rw [natDigitsAux]
    split
    · intro h
      exact digitCh_ne_tab n (List.mem_singleton.1 h).symm
    · intro h
      rcases List.mem_append.1 h with h1 | h2
      · exact ih (n / 10) h1
      · exact digitCh_ne_tab n (List.mem_singleton.1 h2).symm

/-- Decimal renderings contain no delimiter. -/
theorem countTab_natStr (n : Nat) : countTab (natStr n) = 0 := by
  rw [countTab, natStr]
  exact List.count_eq_zero.2 (natDigitsAux_tab_not_mem (n + 1) n)

/-- Year fields contain no delimiter. -/
theorem countTab_padYear (y : Int) : countTab (padYear y) = 0 := by
  unfold padYear
  split <;>
    repeat' first
      | rw [countTab_append]
      | split
      | simp [countTab_natStr]
      | decide

/-- The rendered event time contains no delimiter. -/
theorem countTab_goFormatTime (t : GoTime) : countTab (goFormatTime t) = 0 := by
  simp only [goFormatTime]
  repeat rw [countTab_append]
  simp only [countTab_padYear, countTab_pad2]
  decide

/-- Every element of the row skeleton is delimiter-free. -/
theorem baseOuts_countTab (w : TsdataWriter) (e : Event) :
    ∀ o ∈ baseOuts w e, countTab o = 0 := by
  intro o hmem
  rcases List.mem_cons.1 hmem with h | h
  · rw [h]
    exact countTab_goFormatTime e.time
  · rw [List.eq_of_mem_replicate h]
    decide

/-- Delimiter replacement leaves no delimiter behind. -/
theorem countTab_replaceDelim (s : String) : countTab (replaceDelimWithSpace s) = 0 := by
  rw [countTab, replaceDelimWithSpace]
  rw [List.count_eq_zero]
  intro hmem
  rcases List.mem_map.1 hmem with ⟨c, _, heq⟩
  by_cases h : c = '\t' <;> simp [h] at heq

/-- Setting a delimiter-free value keeps every element delimiter-free. -/
theorem countTab_set_zero (outs : List String) (i : Nat) (v : String)
    (ho : ∀ o ∈ outs, countTab o = 0) (hv : countTab v = 0) :
    ∀ o ∈ outs.set i v, countTab o = 0 := by
  intro o hmem
  rcases List.mem_or_eq_of_mem_set hmem with h | h
  · exact ho o h
  · rw [h]
    exact hv

/-- Joining delimiter-free fields yields exactly one delimiter between
consecutive fields. -/
theorem countTab_goJoin (outs : List String) (h : ∀ o ∈ outs, countTab o = 0) :
    countTab (goJoin Delim outs) = outs.length - 1 := by
  induction outs with
  | nil => rfl
  | cons a rest ih =>
    cases rest with
    | nil =>
      simpa [goJoin] using h a (List.mem_cons_self a [])
    | cons b rs =>
      have hgj : goJoin Delim (a :: b :: rs) = a ++ Delim ++ goJoin Delim (b :: rs) := rfl
      rw [hgj, countTab_append, countTab_append,
        h a (List.mem_cons_self a (b :: rs)),
        ih (fun o ho => h o (List.mem_cons_of_mem a ho))]
      have hd : countTab Delim = 1 := by decide
      rw [hd]
      simp only [List.length_cons]
      omega

/-- C8: on an error-free event whose column's declared type is `boolean`,
`EventText` renders the column as the literal `TRUE` or `FALSE` when the
value is a bool, and fails with a render error (empty row, non-nil error)
when the value is not a bool, rather than coercing it. -/
theorem EventText_boolean_column (w : TsdataWriter) (e : Event) (i : Nat)
    (he : e.error = Option.none) (hcol : w.coli.lookup e.name = some i)
    (hty : w.types.getD i "" = "boolean") :
    (∀ b : Bool, e.value = GoValue.bool b →
      EventText w e =
        (goJoin Delim ((baseOuts w e).set i (if b then "TRUE" else "FALSE")),
          Option.none)) ∧
    ((∀ b : Bool, e.value ≠ GoValue.bool b) →
      EventText w e = ("", some ("bad boolean value for column " ++ e.name))) := by
  constructor
  · intro b hb
    simp only [EventText, he, hcol, hty, hb, if_pos]
  · intro hnb
    cases hv : e.value with
    | bool b => exact absurd hv (hnb b)
    | none => simp only [EventText, he, hcol, hty, hv, if_pos]
    | float lit => simp only [EventText, he, hcol, hty, hv, if_pos]
    | str s => simp only [EventText, he, hcol, hty, hv, if_pos]

/-- Witness for C8: a concrete boolean event against the constructed
writer, rendered as `TRUE`, and a non-boolean value in the same column
failing with a render error. -/
theorem EventText_boolean_column_witness :
    EventText (NewTsdataWriter "ft" "proj" "desc")
        ⟨"sleeping", "boolean", "Going to sleep", GoValue.bool true, 5, 2, Option.none⟩ =
      (goJoin Delim ((baseOuts (NewTsdataWriter "ft" "proj" "desc")
          ⟨"sleeping", "boolean", "Going to sleep", GoValue.bool true, 5, 2, Option.none⟩).set 3
        "TRUE"), Option.none) ∧
    EventText (NewTsdataWriter "ft" "proj" "desc")
        ⟨"sleeping", "boolean", "x", GoValue.str "oops", 5, 2, Option.none⟩ =
      ("", some "bad boolean value for column sleeping") := by
  constructor
  · have h := (EventText_boolean_column (NewTsdataWriter "ft" "proj" "desc")
      ⟨"sleeping", "boolean", "Going to sleep", GoValue.bool true, 5, 2, Option.none⟩ 3 rfl
      (by decide) (by decide)).1 true rfl
    simpa using h
  · exact (EventText_boolean_column (NewTsdataWriter "ft" "proj" "desc")
      ⟨"sleeping", "boolean", "x", GoValue.str "oops", 5, 2, Option.none⟩ 3 rfl
      (by decide) (by decide)).2 (by intro b h; cases h)

/-- C9: on an error-free event whose column's declared type is `text`,
`EventText` renders the value with every delimiter character replaced by a
space, and the rendered row carries exactly one delimiter between
consecutive schema columns, so the field count equals the column count
regardless of the value's content. -/
theorem EventText_text_column (w : TsdataWriter) (e : Event) (i : Nat)
    (he : e.error = Option.none) (hcol : w.coli.lookup e.name = some i)
    (hty : w.types.getD i "" = "text") :
    EventText w e =
      (goJoin Delim ((baseOuts w e).set i (replaceDelimWithSpace (sprintfV e.value))),
        Option.none) ∧
    countTab (replaceDelimWithSpace (sprintfV e.value)) = 0 ∧
    countTab (EventText w e).1 = w.headers.length - 1 := by
  have hne : w.types.getD i "" ≠ "boolean" := by
    rw [hty]
    decide
  have heq : EventText w e =
      (goJoin Delim ((baseOuts w e).set i (replaceDelimWithSpace (sprintfV e.value))),
        Option.none) := by
    simp only [EventText, he, hcol]
    rw [if_neg hne, if_pos hty]
  refine ⟨heq, countTab_replaceDelim _, ?_⟩
  rw [heq]
  rw [countTab_goJoin _ (countTab_set_zero _ _ _ (baseOuts_countTab w e)
    (countTab_replaceDelim _))]
  rw [List.length_set]
  simp only [baseOuts, List.length_cons, List.length_replicate]
  omega

/-- Witness for C9: a text value containing the delimiter, rendered into
the constructed writer's `note` column. -/
theorem EventText_text_column_witness :
    EventText (NewTsdataWriter "ft" "proj" "desc")
        ⟨"note", "text", "x", GoValue.str "a\tb", 5, 2, Option.none⟩ =
      (goJoin Delim ((baseOuts (NewTsdataWriter "ft" "proj" "desc")
          ⟨"note", "text", "x", GoValue.str "a\tb", 5, 2, Option.none⟩).set 2
        (replaceDelimWithSpace (sprintfV (GoValue.str "a\tb")))), Option.none) ∧
    countTab (replaceDelimWithSpace (sprintfV (GoValue.str "a\tb"))) = 0 ∧
    countTab (EventText (NewTsdataWriter "ft" "proj" "desc")
        ⟨"note", "text", "x", GoValue.str "a\tb", 5, 2, Option.none⟩).1 =
      (NewTsdataWriter "ft" "proj" "desc").headers.length - 1 :=
  EventText_text_column (NewTsdataWriter "ft" "proj" "desc")
    ⟨"note", "text", "x", GoValue.str "a\tb", 5, 2, Option.none⟩ 2 rfl
    (by decide) (by decide)
